import Mathlib

/-!
Verification development for the challenges-dcc utilities
(`extract_exec_time.py`, `print_synapse_reports.py`).

The scripts are thin batch pipelines around a remote platform client.  We
embed the repository's own computations directly (regex-based log-timestamp
extraction, ISO-timestamp parsing, query construction and counting, the
report aggregation and the main loops), and model the remote platform and
the filesystem as explicit oracle parameters.
-/

namespace ChallengesDcc

/-! ### Character classes and pattern atoms

The two regexes in `extract_exec_time.py` (lines 91-97),

  `STDERR: ([\d\-T:]+?\.\d{6})\d+?Z.*?Issued job.*?run_docker\.cwl`
  `STDERR: ([\d\-T:]+?\.\d{6})\d+?Z.*?Job ended.*?run_docker\.cwl`

are purely sequential: literals and character classes under lazy `+?`/`*?`
or exact `{6}` quantifiers, with one capturing group.  We compile each into
a list of atoms and run a backtracking matcher with Python's leftmost,
lazy-quantifier semantics (`.` does not match a newline since `re.DOTALL`
is not set). -/

/-- Character classes occurring in the two regexes: `\d`, `[\d\-T:]` and `.`
(the last without DOTALL, so it excludes the newline).  `\d` is modelled as
the ASCII digits; the log texts are ASCII. -/
inductive CC where
  | digit
  | tsChar
  | anyNoNL
deriving DecidableEq

/-- Membership test of a character class. -/
def CC.test : CC → Char → Bool
  | .digit, c => c.isDigit
  | .tsChar, c => c.isDigit || c = '-' || c = 'T' || c = ':'
  | .anyNoNL, c => c != '\n'

/-- One atom of a compiled sequential regex: a literal character, an exact
repetition `x{n}` of a class, a lazy plus `x+?` or a lazy star `x*?`. -/
inductive Atom where
  | ch (c : Char)
  | repExact (x : CC) (n : Nat)
  | plusLazy (x : CC)
  | starLazy (x : CC)

/-- Lazy-star loop: first try the continuation `next` (lazy quantifiers
prefer the shortest match), and only on failure consume one more character
of class `x` and repeat. -/
def tryStar (x : CC) (next : List Char → Option (List Char)) :
    List Char → Option (List Char)
  | [] =>
    match next [] with
    | some v => some v
    | none => none
  | c :: t =>
    match next (c :: t) with
    | some v => some v
    | none => if x.test c then tryStar x next t else none

/-- Exact repetition `x{n}`: consume `n` characters of class `x`, then
continue. -/
def repCC (x : CC) (next : List Char → Option (List Char)) :
    Nat → List Char → Option (List Char)
  | 0, s => next s
  | _ + 1, [] => none
  | n + 1, c :: t => if x.test c then repCC x next n t else none

/-- Backtracking matcher for a sequential pattern, in continuation-passing
style; `k` receives the unconsumed remainder of the input.  Lazy `+?` is
`x` followed by a lazy star, matching Python's backtracking order. -/
def matchAtoms : List Atom → List Char → (List Char → Option (List Char)) →
    Option (List Char)
  | [], s, k => k s
  | .ch c :: as, s, k =>
    match s with
    | [] => none
    | c' :: t => if c' = c then matchAtoms as t k else none
  | .repExact x n :: as, s, k => repCC x (fun s' => matchAtoms as s' k) n s
  | .plusLazy x :: as, s, k =>
    match s with
    | [] => none
    | c :: t => if x.test c then tryStar x (fun s' => matchAtoms as s' k) t else none
  | .starLazy x :: as, s, k => tryStar x (fun s' => matchAtoms as s' k) s

/-- A compiled pattern with a single capturing group: the atoms before the
group, the atoms of the group, and the atoms after it. -/
structure Pat where
  pre : List Atom
  grp : List Atom
  post : List Atom

/-- Compile a literal string into literal atoms. -/
def strAtoms (s : String) : List Atom := s.toList.map Atom.ch

/-- Match a pattern at the start of `s`; on success return the characters
consumed by the capturing group (`.group(1)`). -/
def matchPat (p : Pat) (s : List Char) : Option (List Char) :=
  matchAtoms p.pre s fun s1 =>
    matchAtoms p.grp s1 fun s2 =>
      matchAtoms p.post s2 fun _ =>
        some (s1.take (s1.length - s2.length))

/-- Python's `re.search`: try the pattern at every position left to right
and return the first match's group. -/
def search (p : Pat) : List Char → Option (List Char)
  | [] => matchPat p []
  | c :: t =>
    match matchPat p (c :: t) with
    | some g => some g
    | none => search p t

/-- Compiled form of the start-marker regex of `calc_exec_time`
(`extract_exec_time.py` line 92):
`STDERR: ([\d\-T:]+?\.\d{6})\d+?Z.*?Issued job.*?run_docker\.cwl`. -/
def startPat : Pat where
  pre := strAtoms "STDERR: "
  grp := [.plusLazy .tsChar, .ch '.', .repExact .digit 6]
  post := [.plusLazy .digit, .ch 'Z', .starLazy .anyNoNL] ++
    strAtoms "Issued job" ++ [.starLazy .anyNoNL] ++ strAtoms "run_docker.cwl"

/-- Compiled form of the end-marker regex of `calc_exec_time`
(`extract_exec_time.py` line 96):
`STDERR: ([\d\-T:]+?\.\d{6})\d+?Z.*?Job ended.*?run_docker\.cwl`. -/
def endPat : Pat where
  pre := strAtoms "STDERR: "
  grp := [.plusLazy .tsChar, .ch '.', .repExact .digit 6]
  post := [.plusLazy .digit, .ch 'Z', .starLazy .anyNoNL] ++
    strAtoms "Job ended" ++ [.starLazy .anyNoNL] ++ strAtoms "run_docker.cwl"

/-! ### Calendar arithmetic (CPython `datetime`) -/

/-- Gregorian leap-year test, as in CPython `datetime._is_leap`. -/
def isLeap (y : Nat) : Bool := (y % 4 = 0 && y % 100 != 0) || y % 400 = 0

/-- Number of days in month `m` of year `y` (CPython `_days_in_month`). -/
def daysInMonth (y m : Nat) : Nat :=
  if m = 2 then (if isLeap y then 29 else 28)
  else if m = 4 || m = 6 || m = 9 || m = 11 then 30
  else 31

/-- Cumulative day count before month `m` in a non-leap year
(CPython `_DAYS_BEFORE_MONTH`). -/
def daysBeforeMonth (m : Nat) : Nat :=
  [0, 0, 31, 59, 90, 120, 151, 181, 212, 243, 273, 304, 334].getD m 0

/-- Proleptic-Gregorian ordinal of a date, with 0001-01-01 as day 1
(CPython `datetime.toordinal` / `_ymd2ord`). -/
def toordinal (y m d : Nat) : Nat :=
  365 * (y - 1) + (y - 1) / 4 - (y - 1) / 100 + (y - 1) / 400 +
    daysBeforeMonth m + (if 2 < m && isLeap y then 1 else 0) + d

/-! ### `datetime.fromisoformat` (CPython, naive timestamps)

The accelerated C implementation of `datetime.fromisoformat` (Python ≤
3.10) parses exactly `YYYY-MM-DD` (strict digit counts), an arbitrary
single separator character, then `HH[:MM[:SS[.fff[fff]]]]` with strict
two-digit components, followed by an optional UTC-offset suffix.  We model
the naive (offset-free) forms and map an offset suffix to a parse failure:
the capture group of both markers always ends in the six fractional
digits, so an offset suffix cannot terminate a captured timestamp, and the
TOIL log timestamps are offset-free (the trailing `Z` is outside the
group).  The result is the timestamp in microseconds since 0001-01-01
00:00:00; only differences of these values are ever used. -/

/-- Numeric value of an ASCII digit. -/
def digToNat (c : Char) : Nat := c.toNat - 48

/-- Parse exactly `n` ASCII digits into a number (most significant first),
returning the value and the remainder. -/
def parseFixed : Nat → Nat → List Char → Option (Nat × List Char)
  | 0, acc, s => some (acc, s)
  | _ + 1, _, [] => none
  | n + 1, acc, c :: t =>
    if c.isDigit then parseFixed n (acc * 10 + digToNat c) t else none

/-- Consume one expected literal character. -/
def expectChar (c : Char) : List Char → Option (List Char)
  | [] => none
  | c' :: t => if c' = c then some t else none

/-- Parse the time part `HH[:MM[:SS[.fff[fff]]]]` of an ISO timestamp
(CPython `_parse_hh_mm_ss_ff`); a fraction must have exactly 3 or 6
digits, a 3-digit fraction counts milliseconds.  Any other trailing
characters (in particular a UTC-offset suffix) are modelled as failure. -/
def parseTimePart (t : List Char) : Option (Nat × Nat × Nat × Nat) := do
  let (hh, r1) ← parseFixed 2 0 t
  match r1 with
  | [] => pure (hh, 0, 0, 0)
  | ':' :: r2 =>
    let (mm, r3) ← parseFixed 2 0 r2
    match r3 with
    | [] => pure (hh, mm, 0, 0)
    | ':' :: r4 =>
      let (ss, r5) ← parseFixed 2 0 r4
      match r5 with
      | [] => pure (hh, mm, ss, 0)
      | '.' :: r6 =>
        if r6.length = 3 then do
          let (f, r7) ← parseFixed 3 0 r6
          if r7 = [] then pure (hh, mm, ss, f * 1000) else none
        else if r6.length = 6 then do
          let (f, r7) ← parseFixed 6 0 r6
          if r7 = [] then pure (hh, mm, ss, f) else none
        else none
      | _ => none
    | _ => none
  | _ => none

/-- CPython `datetime.fromisoformat` on a character list, restricted to
naive results: strict `YYYY-MM-DD`, then optionally one arbitrary
separator character and a time part; all fields are range-checked as by
the `datetime` constructor.  Returns microseconds since 0001-01-01. -/
def fromisoformat (l : List Char) : Option Nat := do
  let (y, r1) ← parseFixed 4 0 l
  let r2 ← expectChar '-' r1
  let (m, r3) ← parseFixed 2 0 r2
  let r4 ← expectChar '-' r3
  let (d, r5) ← parseFixed 2 0 r4
  let (hh, mm, ss, ff) ←
    match r5 with
    | [] => pure (0, 0, 0, 0)
    | _sep :: tstr => parseTimePart tstr
  if 1 ≤ y ∧ 1 ≤ m ∧ m ≤ 12 ∧ 1 ≤ d ∧ d ≤ daysInMonth y m ∧
      hh ≤ 23 ∧ mm ≤ 59 ∧ ss ≤ 59 then
    pure (((toordinal y m d - 1) * 86400 + hh * 3600 + mm * 60 + ss) * 1000000 + ff)
  else none

/-! ### `calc_exec_time` -/

/-- Python exceptions that the embedded code can surface. -/
inductive PyErr where
  | valueError
  | typeError
  | fileNotFound
  | synapseHTTPError
  | otherError
deriving DecidableEq

/-- Value returned by `calc_exec_time`: either the sentinel message string
or the elapsed time in seconds (`timedelta.total_seconds()`, modelled
exactly as a rational). -/
inductive ExecResult where
  | msg (s : String)
  | secs (t : ℚ)
deriving DecidableEq

/-- Body of `calc_exec_time` (`extract_exec_time.py` lines 90-103) on the
log text: search for the start marker and parse its captured timestamp,
then the end marker, then return the difference in seconds.  A failed
`re.search` makes `.group(1)` raise `AttributeError`, which the `except`
clause turns into the sentinel string; a `ValueError` from
`datetime.fromisoformat` is not caught and propagates.  The file `open` is
modelled separately in `calc_exec_time_of_file`. -/
def calc_exec_time (log : String) : Except PyErr ExecResult :=
  match search startPat log.toList with
  | none => .ok (.msg "run_docker step not found")
  | some g1 =>
    match fromisoformat g1 with
    | none => .error .valueError
    | some t1 =>
      match search endPat log.toList with
      | none => .ok (.msg "run_docker step not found")
      | some g2 =>
        match fromisoformat g2 with
        | none => .error .valueError
        | some t2 => .ok (.secs (((t2 : ℚ) - (t1 : ℚ)) / 1000000))

/-! ### Filesystem model, `unzip_file` and the per-record log processing -/

/-- Filesystem oracle: whether a path is a zip archive
(`zipfile.is_zipfile`), the member files an archive extracts to, and the
text content a path opens to (`none` models `FileNotFoundError`). -/
structure FS where
  zipCheck : String → Bool
  zipMembers : String → List (String × String)
  readFile : String → Option String

/-- Embedding of `unzip_file` (`extract_exec_time.py` lines 71-77): extract
the archive when it is a zip file, otherwise print a message naming the
file.  Returns the printed lines and the extracted member files; the
function is total (it raises nothing). -/
def unzip_file (fs : FS) (f : String) : List String × List (String × String) :=
  if fs.zipCheck f then ([], fs.zipMembers f)
  else ([f ++ " is not a zip file."], [])

/-- The file-opening wrapper of `calc_exec_time` (lines 88-89): `open` the
log file, then run the body on its text; a missing file raises
`FileNotFoundError`, which nothing in the script catches. -/
def calc_exec_time_of_file (fs : FS) (log_file : String) : Except PyErr ExecResult :=
  match fs.readFile log_file with
  | none => .error .fileNotFound
  | some log => calc_exec_time log

/-- The unzip-then-extract fragment of the main loop
(`extract_exec_time.py` lines 130-133): unzip `{filename}.zip`, then open
`{filename}.txt` and compute the duration.  The open is not guarded, so
its failure surfaces as the `Except.error` of the second component. -/
def process_logs (fs : FS) (filename : String) : List String × Except PyErr ExecResult :=
  let unzipped := unzip_file fs (filename ++ ".zip")
  (unzipped.1, calc_exec_time_of_file fs (filename ++ ".txt"))

/-! ### `get_team_name` -/

/-- Outcome of one remote client call: a value, a raised
`SynapseHTTPError`, or any other raised exception. -/
inductive Remote (α : Type) where
  | ok (a : α)
  | httpError
  | otherError

/-- A Synapse team record; `.get('name')` returns `None` when the key is
absent, hence the `Option`. -/
structure TeamRec where
  name : Option String

/-- A Synapse user-profile record (`.get('userName')`). -/
structure ProfileRec where
  userName : Option String

/-- Remote-client oracle for the two lookups used by `get_team_name`. -/
structure SynClient where
  getTeam : String → Remote TeamRec
  getUserProfile : String → Remote ProfileRec

/-- Embedding of `get_team_name` (`extract_exec_time.py` lines 49-56):
return the team's name; if `getTeam` raises `SynapseHTTPError`, fall back
to the user profile's `userName`.  Any other exception from `getTeam`, and
any exception at all from `getUserProfile` (raised inside the `except`
handler), propagates. -/
def get_team_name (syn : SynClient) (uid : String) : Except PyErr (Option String) :=
  match syn.getTeam uid with
  | .ok t => .ok t.name
  | .httpError =>
    match syn.getUserProfile uid with
    | .ok p => .ok p.userName
    | .httpError => .error .synapseHTTPError
    | .otherError => .error .otherError
  | .otherError => .error .otherError

/-! ### The main loop of the exec-time tool -/

/-- One row of the ACCEPTED-submissions dataframe (`get_submissions`). -/
structure SubmissionRow where
  id : String
  submitterid : String

/-- Embedding of the row loop of `main` (`extract_exec_time.py` lines
119-141), with the per-row effects (team-name resolution, log download,
unzip and duration extraction — modelled individually above) abstracted as
`step`.  Each processed row's dataframe cells are filled with `step`'s
result; with `--dryrun` the loop breaks after the first iteration, leaving
the remaining rows' added columns empty (`none`).  An exception from
`step` aborts the whole run before the CSV is written.  The returned list
is the dataframe written by `to_csv` (line 142): every row appears,
processed or not. -/
def main_loop (step : SubmissionRow → Except PyErr (Option String × ExecResult))
    (dryrun : Bool) :
    List SubmissionRow →
      Except PyErr (List (SubmissionRow × Option (Option String × ExecResult)))
  | [] => .ok []
  | r :: rest => do
    let out ← step r
    if dryrun then
      .ok ((r, some out) :: rest.map fun r' => (r', none))
    else do
      let tail ← main_loop step dryrun rest
      .ok ((r, some out) :: tail)

/-- Number of rows of the written dataframe whose added columns were
actually filled in by an iteration of the loop. -/
def processedCount (csv : List (SubmissionRow × Option (Option String × ExecResult))) :
    Nat :=
  csv.countP fun row => row.2.isSome

/-! ## `print_synapse_reports.py` -/

/-! ### `get_challenge_info` -/

/-- One evaluation object from `GET /entity/{challenge}/evaluation`. -/
structure EvalInfo where
  id : String
  name : String

/-- The three REST responses `get_challenge_info` reads for one challenge
id: the entity name, the challenge object's id and participant team id,
and the evaluation list. -/
structure ChallengeEntity where
  entityName : String
  challengeId : String
  participantTeamId : String
  evals : List EvalInfo

/-- Lower-cased character list of a string (ASCII case folding, as
`re.IGNORECASE` acts on these ASCII names). -/
def lowerStr (s : String) : List Char := s.toList.map Char.toLower

/-- Whether `pat` occurs starting at the head of `s`. -/
def leadsWith : List Char → List Char → Bool
  | [], _ => true
  | _ :: _, [] => false
  | p :: ps, c :: cs => p = c && leadsWith ps cs

/-- Whether `pat` occurs as a contiguous substring of `s`
(`re.search` of a literal pattern). -/
def containsSeg (pat : List Char) : List Char → Bool
  | [] => leadsWith pat []
  | c :: t => leadsWith pat (c :: t) || containsSeg pat t

/-- The filter of `get_challenge_info` (`print_synapse_reports.py` line
61): `re.search(r"test|write-up|uw", name, re.I)` succeeds exactly when
the lower-cased name contains one of the three literal alternatives. -/
def matchesExcluded (name : String) : Bool :=
  containsSeg "test".toList (lowerStr name) ||
  containsSeg "write-up".toList (lowerStr name) ||
  containsSeg "uw".toList (lowerStr name)

/-- The tuple `get_challenge_info` returns (as named fields). -/
structure ChallengeInfo where
  c_id : String
  name : String
  team : String
  eval_ids : List String

/-- Embedding of `get_challenge_info` (`print_synapse_reports.py` lines
42-63), over a REST oracle: keep the id of every evaluation whose name
does not match `test|write-up|uw` case-insensitively. -/
def get_challenge_info (rest : String → ChallengeEntity) (challenge : String) :
    ChallengeInfo :=
  let e := rest challenge
  { c_id := e.challengeId
    name := e.entityName
    team := e.participantTeamId
    eval_ids := (e.evals.filter fun ev => !matchesExcluded ev.name).map fun ev => ev.id }

/-! ### `convert_to_epoch` (strptime `%Y-%m-%dT%H:%M:%S` plus
`datetime.timestamp()`)

`_strptime` matches `%Y` as exactly four digits and the other fields with
the alternations below (one or two digits, value-constrained); the full
input must be consumed.  `timestamp()` interprets the naive result in the
process's local timezone, which we model as a fixed offset `tzOff` in
seconds east of UTC. -/

/-- strptime `%m`: `1[0-2]|0[1-9]|[1-9]`, alternatives tried left to
right. -/
def parseMonth : List Char → Option (Nat × List Char)
  | [] => none
  | c1 :: rest =>
    match rest with
    | c2 :: rest2 =>
      if c1 = '1' && '0' ≤ c2 && c2 ≤ '2' then some (10 + digToNat c2, rest2)
      else if c1 = '0' && '1' ≤ c2 && c2 ≤ '9' then some (digToNat c2, rest2)
      else if '1' ≤ c1 && c1 ≤ '9' then some (digToNat c1, rest)
      else none
    | [] => if '1' ≤ c1 && c1 ≤ '9' then some (digToNat c1, []) else none

/-- strptime `%d`: `3[01]|[12]\d|0[1-9]|[1-9]`. -/
def parseDay : List Char → Option (Nat × List Char)
  | [] => none
  | c1 :: rest =>
    match rest with
    | c2 :: rest2 =>
      if c1 = '3' && ('0' ≤ c2 && c2 ≤ '1') then some (30 + digToNat c2, rest2)
      else if ('1' ≤ c1 && c1 ≤ '2') && c2.isDigit then
        some (digToNat c1 * 10 + digToNat c2, rest2)
      else if c1 = '0' && '1' ≤ c2 && c2 ≤ '9' then some (digToNat c2, rest2)
      else if '1' ≤ c1 && c1 ≤ '9' then some (digToNat c1, rest)
      else none
    | [] => if '1' ≤ c1 && c1 ≤ '9' then some (digToNat c1, []) else none

/-- strptime `%H`: `2[0-3]|[0-1]\d|\d`. -/
def parseHour : List Char → Option (Nat × List Char)
  | [] => none
  | c1 :: rest =>
    match rest with
    | c2 :: rest2 =>
      if c1 = '2' && ('0' ≤ c2 && c2 ≤ '3') then some (20 + digToNat c2, rest2)
      else if ('0' ≤ c1 && c1 ≤ '1') && c2.isDigit then
        some (digToNat c1 * 10 + digToNat c2, rest2)
      else if c1.isDigit then some (digToNat c1, rest)
      else none
    | [] => if c1.isDigit then some (digToNat c1, []) else none

/-- strptime `%M` and `%S`: `[0-5]\d|\d`. -/
def parseMinSec : List Char → Option (Nat × List Char)
  | [] => none
  | c1 :: rest =>
    match rest with
    | c2 :: rest2 =>
      if ('0' ≤ c1 && c1 ≤ '5') && c2.isDigit then
        some (digToNat c1 * 10 + digToNat c2, rest2)
      else if c1.isDigit then some (digToNat c1, rest)
      else none
    | [] => if c1.isDigit then some (digToNat c1, []) else none

/-- `datetime.strptime(dt, "%Y-%m-%dT%H:%M:%S")`: parse the six fields
with the literal separators, require the whole string consumed, and apply
the `datetime` constructor's day-of-month and year range checks. -/
def strptimeYmdHMS (dt : String) : Option (Nat × Nat × Nat × Nat × Nat × Nat) := do
  let (y, r1) ← parseFixed 4 0 dt.toList
  let r2 ← expectChar '-' r1
  let (m, r3) ← parseMonth r2
  let r4 ← expectChar '-' r3
  let (d, r5) ← parseDay r4
  let r6 ← expectChar 'T' r5
  let (hh, r7) ← parseHour r6
  let r8 ← expectChar ':' r7
  let (mm, r9) ← parseMinSec r8
  let r10 ← expectChar ':' r9
  let (ss, r11) ← parseMinSec r10
  if r11 = [] ∧ 1 ≤ y ∧ 1 ≤ d ∧ d ≤ daysInMonth y m then
    pure (y, m, d, hh, mm, ss)
  else none

/-- Embedding of `convert_to_epoch` (`print_synapse_reports.py` lines
66-69): strptime the string, then `timestamp() * 1000` as an integer.
`timestamp()` treats the naive datetime as local time; `tzOff` is the
local timezone's offset from UTC in seconds.  `none` models the
`ValueError` a malformed string raises. -/
def convert_to_epoch (tzOff : Int) (dt : String) : Option Int :=
  (strptimeYmdHMS dt).map fun v =>
    match v with
    | (y, m, d, hh, mm, ss) =>
      (((toordinal y m d : Int) - 719163) * 86400 +
        hh * 3600 + mm * 60 + ss - tzOff) * 1000

/-! ### `count_submissions` -/

/-- One submission record of a remote evaluation queue, with its status
and `createdOn` epoch-millisecond timestamp. -/
structure EvalSub where
  status : String
  createdOn : Int

/-- The query `count_submissions` builds for one queue
(`print_synapse_reports.py` lines 86-90), in structured form:
`SELECT * FROM evaluation_{eval_id} WHERE status == 'ACCEPTED'`, plus
`AND createdOn >= {start}` when `startBound` is present and
`AND createdOn <= {end}` when `endBound` is present. -/
structure SubQuery where
  eval_id : String
  startBound : Option Int
  endBound : Option Int
deriving DecidableEq

/-- Modelled from the spec: the remote paginated evaluation-queue query
(`challengeutils.utils.evaluation_queue_query`, not part of this
repository) returns every submission of the queue satisfying the query's
predicates; with `limit=13` it pages through 13 at a time but still yields
all results.  `queues` is the remote state: the submissions of each
evaluation queue. -/
def run_query (queues : String → List EvalSub) (q : SubQuery) : List EvalSub :=
  (queues q.eval_id).filter fun sub =>
    sub.status == "ACCEPTED" &&
    (match q.startBound with
     | none => true
     | some v => v ≤ sub.createdOn) &&
    (match q.endBound with
     | none => true
     | some v => sub.createdOn ≤ v)

/-- The per-queue loop of `count_submissions` (lines 84-92): build one
query per evaluation id and accumulate the result counts.  Returns the
issued queries together with the total. -/
def count_loop (queues : String → List EvalSub) (startB endB : Option Int) :
    List String → List SubQuery × Nat
  | [] => ([], 0)
  | eid :: rest =>
    let q : SubQuery := ⟨eid, startB, endB⟩
    let tail := count_loop queues startB endB rest
    (q :: tail.1, (run_query queues q).length + tail.2)

/-- The conversion step `if start: start = convert_to_epoch(start)`
(`print_synapse_reports.py` lines 79-82): a `None` or empty-string bound
is falsy and left unconverted; a non-empty bound is converted, raising
`ValueError` when malformed. -/
def convert_bound (tzOff : Int) : Option String → Except PyErr (Option Int)
  | none => .ok none
  | some s =>
    if s = "" then .ok none
    else
      match convert_to_epoch tzOff s with
      | none => .error .valueError
      | some v => .ok (some v)

/-- The second truthiness test `if start:` inside the query loop (lines
87-90), now on the converted integer: the predicate is added exactly when
the converted value is present and non-zero. -/
def truthyBound : Option Int → Option Int
  | none => none
  | some v => if v = 0 then none else some v

/-- Embedding of `count_submissions` (`print_synapse_reports.py` lines
72-93): convert the truthy bounds, issue one query per evaluation id and
sum the result counts.  Returns the issued queries and the total. -/
def count_submissions (queues : String → List EvalSub) (tzOff : Int)
    (evaluations : List String) (start stop : Option String) :
    Except PyErr (List SubQuery × Nat) := do
  let startEp ← convert_bound tzOff start
  let endEp ← convert_bound tzOff stop
  .ok (count_loop queues (truthyBound startEp) (truthyBound endEp) evaluations)

/-! ### `print_report` -/

/-- The per-challenge loop of `print_report` (`print_synapse_reports.py`
lines 101-117): resolve the challenge info and participant set, grow the
union of unique users and the submission total, and emit one
tab-separated line per challenge.  `team_set` is the oracle for
`challengeutils.teams._get_team_set`'s set of member `ownerId`s. -/
def report_loop (rest : String → ChallengeEntity) (team_set : String → Finset String)
    (queues : String → List EvalSub) (tzOff : Int) (start stop : Option String) :
    List String → Finset String → Nat →
      Except PyErr (List String × Finset String × Nat)
  | [], users, total => .ok ([], users, total)
  | ch :: more, users, total => do
    let ci := get_challenge_info rest ch
    let participants := team_set ci.team
    let counted ← count_submissions queues tzOff ci.eval_ids start stop
    let tail ← report_loop rest team_set queues tzOff start stop more
      (users ∪ participants) (total + counted.2)
    .ok ((String.intercalate "\t"
        [ci.c_id, ci.name, ci.team, toString participants.card, toString counted.2])
      :: tail.1, tail.2)

/-- Embedding of `print_report` (`print_synapse_reports.py` lines
96-121): run the challenge loop from an empty user set and zero total,
then print the separator and the two grand-total lines.  Returns the
printed lines. -/
def print_report (rest : String → ChallengeEntity) (team_set : String → Finset String)
    (queues : String → List EvalSub) (tzOff : Int)
    (challenge_ids : List String) (start stop : Option String) :
    Except PyErr (List String) := do
  let r ← report_loop rest team_set queues tzOff start stop challenge_ids ∅ 0
  .ok (r.1 ++ ["====================",
    "Total registrants for challenges: " ++ toString r.2.1.card,
    "Total submissions for challenges: " ++ toString r.2.2])

/-! ## Claims

Each claim of the specification is settled by one theorem below (plus a
closed witness when the theorem has hypotheses, and a closed
counterexample where the original claim fails on the code). -/

/-- C5: for every identifier, `get_team_name` returns the team's name when
the team lookup succeeds; on a `SynapseHTTPError` from the team lookup it
falls back to the user profile and returns its `userName`; any other
remote failure — a non-HTTP error from either lookup, or any error from
the profile lookup — propagates to the caller uncaught. -/
theorem c5_get_team_name_fallback (syn : SynClient) (uid : String) :
    (∀ t, syn.getTeam uid = .ok t → get_team_name syn uid = .ok t.name) ∧
    (∀ p, syn.getTeam uid = .httpError → syn.getUserProfile uid = .ok p →
      get_team_name syn uid = .ok p.userName) ∧
    (syn.getTeam uid = .otherError → get_team_name syn uid = .error .otherError) ∧
    (syn.getTeam uid = .httpError → syn.getUserProfile uid = .otherError →
      get_team_name syn uid = .error .otherError) ∧
    (syn.getTeam uid = .httpError → syn.getUserProfile uid = .httpError →
      get_team_name syn uid = .error .synapseHTTPError) := by
  refine ⟨?_, ?_, ?_, ?_, ?_⟩ <;> intros <;> simp_all [get_team_name]

/-- Concrete witness for C5: a client whose team lookup succeeds, and one
whose team lookup raises `SynapseHTTPError` with each possible profile
outcome. -/
theorem c5_get_team_name_fallback_witness :
    get_team_name ⟨fun _ => .ok ⟨some "Team Alpha"⟩, fun _ => .ok ⟨some "alice"⟩⟩
      "3401" = .ok (some "Team Alpha") ∧
    get_team_name ⟨fun _ => .httpError, fun _ => .ok ⟨some "alice"⟩⟩
      "3401" = .ok (some "alice") ∧
    get_team_name ⟨fun _ => .otherError, fun _ => .ok ⟨some "alice"⟩⟩
      "3401" = .error .otherError ∧
    get_team_name ⟨fun _ => .httpError, fun _ => .otherError⟩
      "3401" = .error .otherError ∧
    get_team_name ⟨fun _ => .httpError, fun _ => .httpError⟩
      "3401" = .error .synapseHTTPError :=
  ⟨(c5_get_team_name_fallback ⟨fun _ => .ok ⟨some "Team Alpha"⟩,
      fun _ => .ok ⟨some "alice"⟩⟩ "3401").1 ⟨some "Team Alpha"⟩ rfl,
   (c5_get_team_name_fallback ⟨fun _ => .httpError,
      fun _ => .ok ⟨some "alice"⟩⟩ "3401").2.1 ⟨some "alice"⟩ rfl rfl,
   (c5_get_team_name_fallback ⟨fun _ => .otherError,
      fun _ => .ok ⟨some "alice"⟩⟩ "3401").2.2.1 rfl,
   (c5_get_team_name_fallback ⟨fun _ => .httpError,
      fun _ => .otherError⟩ "3401").2.2.2.1 rfl rfl,
   (c5_get_team_name_fallback ⟨fun _ => .httpError,
      fun _ => .httpError⟩ "3401").2.2.2.2 rfl rfl⟩

/-- C9: for every path that is not a zip archive, `unzip_file` extracts
nothing, prints exactly the message naming the file, and (being total)
raises nothing; and the duration-extraction `open` that follows in the
main loop is not separately guarded, so when the expected `.txt` file is
missing the per-record processing surfaces `FileNotFoundError`. -/
theorem c9_unzip_nonzip_unguarded (fs : FS) (f : String)
    (h : fs.zipCheck f = false) :
    unzip_file fs f = ([f ++ " is not a zip file."], []) ∧
    (∀ filename, fs.readFile (filename ++ ".txt") = none →
      (process_logs fs filename).2 = .error .fileNotFound) := by
  constructor
  · simp [unzip_file, h]
  · intro filename hread
    simp [process_logs, calc_exec_time_of_file, hread]

/-- Concrete witness for C9: an empty filesystem, the downloaded file not
a zip archive and the `.txt` file absent. -/
theorem c9_unzip_nonzip_unguarded_witness :
    unzip_file ⟨fun _ => false, fun _ => [], fun _ => none⟩ "9730882_logs.zip" =
      (["9730882_logs.zip is not a zip file."], []) ∧
    (process_logs ⟨fun _ => false, fun _ => [], fun _ => none⟩ "9730882_logs").2 =
      .error .fileNotFound :=
  ⟨(c9_unzip_nonzip_unguarded ⟨fun _ => false, fun _ => [], fun _ => none⟩
      "9730882_logs.zip" rfl).1,
   (c9_unzip_nonzip_unguarded ⟨fun _ => false, fun _ => [], fun _ => none⟩
      "arbitrary" rfl).2 "9730882_logs" rfl⟩

/-- C10: every evaluation whose name contains `test`, `write-up` or `uw`
case-insensitively is excluded from the evaluation-id list
`get_challenge_info` returns (the ids are assumed distinct, as the
platform's evaluation ids are), so such queues never feed the submission
counts. -/
theorem c10_eval_filter (rest : String → ChallengeEntity) (challenge : String)
    (ev : EvalInfo) (hmem : ev ∈ (rest challenge).evals)
    (hname : matchesExcluded ev.name = true)
    (hnodup : ((rest challenge).evals.map EvalInfo.id).Nodup) :
    ev.id ∉ (get_challenge_info rest challenge).eval_ids := by
  intro hin
  simp only [get_challenge_info, List.mem_map, List.mem_filter] at hin
  obtain ⟨ev', ⟨hmem', hkeep⟩, hid⟩ := hin
  have hEq : ev' = ev := List.inj_on_of_nodup_map hnodup hmem' hmem hid
  rw [hEq, hname] at hkeep
  exact absurd hkeep (by simp)

/-- Concrete witness for C10: a challenge with one scoring queue and one
test queue; the test queue's id is absent from the returned list. -/
theorem c10_eval_filter_witness :
    ("9702" : String) ∉ (get_challenge_info
      (fun _ => ⟨"Challenge A", "9601", "3401",
        [⟨"9701", "Final Round"⟩, ⟨"9702", "TEST queue"⟩]⟩) "syn123").eval_ids :=
  c10_eval_filter
    (fun _ => ⟨"Challenge A", "9601", "3401",
      [⟨"9701", "Final Round"⟩, ⟨"9702", "TEST queue"⟩]⟩)
    "syn123" ⟨"9702", "TEST queue"⟩ (by simp) (by decide) (by decide)

/-- C2 counterexample: in this log no line matches the end-marker pattern,
yet `calc_exec_time` raises `ValueError` instead of returning the
sentinel: the start pattern matches with capture `T.123456`, which
`datetime.fromisoformat` rejects, and that exception is not caught. -/
theorem c2_sentinel_counterexample :
    search endPat "STDERR: T.1234567Z Issued job run_docker.cwl".toList = none ∧
    calc_exec_time "STDERR: T.1234567Z Issued job run_docker.cwl" =
      .error .valueError :=
  ⟨rfl, rfl⟩

/-- C2 amended: `calc_exec_time` returns the sentinel string and raises
nothing whenever the start marker is absent, and whenever the start
marker is present with a captured timestamp `fromisoformat` accepts but
the end marker is absent.  (When the start capture is unparseable the
uncaught `ValueError` propagates even if the end marker is absent.) -/
theorem c2_sentinel_amended (log : String) :
    (search startPat log.toList = none →
      calc_exec_time log = .ok (.msg "run_docker step not found")) ∧
    (∀ g t, search startPat log.toList = some g → fromisoformat g = some t →
      search endPat log.toList = none →
      calc_exec_time log = .ok (.msg "run_docker step not found")) := by
  constructor
  · intro h
    simp only [String.toList] at h
    simp [calc_exec_time, h]
  · intro g t h1 h2 h3
    simp only [String.toList] at h1 h3
    simp [calc_exec_time, h1, h2, h3]

/-- Concrete witness for C2 (amended): a markerless log, and a log with a
valid start marker but no end marker. -/
theorem c2_sentinel_amended_witness :
    calc_exec_time "plain text" = .ok (.msg "run_docker step not found") ∧
    calc_exec_time "STDERR: 2021-03-01T10:00:00.1234567Z Issued job x run_docker.cwl" =
      .ok (.msg "run_docker step not found") :=
  ⟨(c2_sentinel_amended "plain text").1 rfl,
   (c2_sentinel_amended
      "STDERR: 2021-03-01T10:00:00.1234567Z Issued job x run_docker.cwl").2
     ("2021-03-01T10:00:00.123456".toList) 63750189600123456 rfl rfl rfl⟩

/-- C7 counterexample: with the dry-run flag set and an empty submissions
table the loop body never runs, so zero rows are processed — not exactly
one — though the (empty) CSV is still written. -/
theorem c7_dryrun_counterexample :
    main_loop (fun _ => .ok (none, .msg "unprocessed")) true [] = .ok [] ∧
    processedCount [] = 0 ∧ (0 : Nat) ≠ 1 :=
  ⟨rfl, rfl, by decide⟩

/-- C7 amended: with the dry-run flag set, a nonempty submissions table
whose first row processes without an exception has exactly that one row
processed (team-name resolution, log download, extraction — the `step`),
after which the loop breaks and the CSV is written containing every row,
the later ones with their added columns unfilled; an empty table
processes zero rows. -/
theorem c7_dryrun_amended (step : SubmissionRow → Except PyErr (Option String × ExecResult))
    (r : SubmissionRow) (rest : List SubmissionRow)
    (out : Option String × ExecResult) (hstep : step r = .ok out) :
    main_loop step true (r :: rest) =
      .ok ((r, some out) :: rest.map fun r' => (r', none)) ∧
    processedCount ((r, some out) :: rest.map fun r' => (r', none)) = 1 ∧
    ((r, some out) :: rest.map fun r' => (r', none)).length = (r :: rest).length := by
  refine ⟨?_, ?_, by simp⟩
  · unfold main_loop
    rw [hstep]
    rfl
  · simp only [processedCount, List.countP_cons]
    have hz : List.countP (fun row => row.2.isSome)
        (rest.map fun r' => ((r', none) :
          SubmissionRow × Option (Option String × ExecResult))) = 0 := by
      rw [List.countP_eq_zero]
      intro a ha
      obtain ⟨r', _, rfl⟩ := List.mem_map.mp ha
      simp
    rw [hz]
    simp

/-- Concrete witness for C7 (amended): a two-row table in dry-run mode,
the first row processing successfully. -/
theorem c7_dryrun_amended_witness :
    main_loop (fun _ => .ok (some "Team Alpha", .msg "run_docker step not found"))
      true [⟨"9730882", "3401"⟩, ⟨"9730883", "3402"⟩] =
      .ok [(⟨"9730882", "3401"⟩,
            some (some "Team Alpha", .msg "run_docker step not found")),
           (⟨"9730883", "3402"⟩, none)] ∧
    processedCount [(⟨"9730882", "3401"⟩,
            some (some "Team Alpha", .msg "run_docker step not found")),
           (⟨"9730883", "3402"⟩, none)] = 1 := by
  have h := c7_dryrun_amended
    (fun _ => .ok (some "Team Alpha", .msg "run_docker step not found"))
    ⟨"9730882", "3401"⟩ [⟨"9730883", "3402"⟩]
    (some "Team Alpha", .msg "run_docker step not found") rfl
  exact ⟨h.1, h.2.1⟩

/-- C1: for every log in which the start-marker search and the end-marker
search both succeed with captured timestamps that parse, and the start
timestamp T1 precedes the end timestamp T2, `calc_exec_time` returns the
elapsed time `T2 - T1` in seconds, a non-negative value. -/
theorem c1_elapsed_seconds (log : String) (g1 g2 : List Char) (t1 t2 : Nat)
    (h1 : search startPat log.toList = some g1)
    (h2 : fromisoformat g1 = some t1)
    (h3 : search endPat log.toList = some g2)
    (h4 : fromisoformat g2 = some t2)
    (hlt : t1 < t2) :
    calc_exec_time log = .ok (.secs (((t2 : ℚ) - (t1 : ℚ)) / 1000000)) ∧
    0 ≤ ((t2 : ℚ) - (t1 : ℚ)) / 1000000 := by
  constructor
  · simp only [String.toList] at h1 h3
    simp [calc_exec_time, h1, h2, h3, h4]
  · have hle : (t1 : ℚ) ≤ (t2 : ℚ) := by exact_mod_cast hlt.le
    have : (0 : ℚ) ≤ (t2 : ℚ) - (t1 : ℚ) := by linarith
    positivity

/-- Concrete witness for C1: a two-line TOIL log whose markers carry the
timestamps 10:00:00.123456 and 10:30:00.654321 (after truncation), an
elapsed time of 1800.530865 seconds. -/
theorem c1_elapsed_seconds_witness :
    calc_exec_time "STDERR: 2021-03-01T10:00:00.1234567Z Issued job xy run_docker.cwl\nSTDERR: 2021-03-01T10:30:00.6543219Z Job ended run_docker.cwl" =
      .ok (.secs ((((63750191400654321 : Nat) : ℚ) - ((63750189600123456 : Nat) : ℚ)) / 1000000)) ∧
    0 ≤ (((63750191400654321 : Nat) : ℚ) - ((63750189600123456 : Nat) : ℚ)) / 1000000 :=
  c1_elapsed_seconds
    "STDERR: 2021-03-01T10:00:00.1234567Z Issued job xy run_docker.cwl\nSTDERR: 2021-03-01T10:30:00.6543219Z Job ended run_docker.cwl"
    ("2021-03-01T10:00:00.123456".toList) ("2021-03-01T10:30:00.654321".toList)
    63750189600123456 63750191400654321
    (by decide) (by decide) (by decide) (by decide) (by decide)

/-! ### Lemmas about the submission counter -/

/-- The queries `count_loop` issues: exactly one per evaluation id, in
order, all with the same bounds. -/
theorem count_loop_queries (queues : String → List EvalSub) (a b : Option Int) :
    ∀ l : List String,
      (count_loop queues a b l).1 = l.map fun e => (⟨e, a, b⟩ : SubQuery)
  | [] => rfl
  | e :: rest => by
    simp [count_loop, count_loop_queries queues a b rest]

/-- The total `count_loop` returns: the sum of the per-queue result
counts. -/
theorem count_loop_total (queues : String → List EvalSub) (a b : Option Int) :
    ∀ l : List String,
      (count_loop queues a b l).2 =
        (l.map fun e => (run_query queues ⟨e, a, b⟩).length).sum
  | [] => rfl
  | e :: rest => by
    simp [count_loop, count_loop_total queues a b rest]

/-- A query without bounds returns exactly the ACCEPTED submissions of
the queue. -/
theorem run_query_nobounds (queues : String → List EvalSub) (e : String) :
    run_query queues ⟨e, none, none⟩ =
      (queues e).filter fun sub => sub.status == "ACCEPTED" := by
  unfold run_query
  exact List.filter_congr fun x _ => by simp

/-- Adding a start bound to a query never grows its result. -/
theorem run_query_mono_start (queues : String → List EvalSub) (e : String)
    (v : Int) (b : Option Int) :
    (run_query queues ⟨e, some v, b⟩).length ≤
      (run_query queues ⟨e, none, b⟩).length := by
  apply List.Sublist.length_le
  apply List.monotone_filter_right
  intro a ha
  simp only [Bool.and_eq_true] at ha ⊢
  exact ⟨⟨ha.1.1, trivial⟩, ha.2⟩

/-- Adding an end bound to a query never grows its result. -/
theorem run_query_mono_end (queues : String → List EvalSub) (e : String)
    (v : Int) (a : Option Int) :
    (run_query queues ⟨e, a, some v⟩).length ≤
      (run_query queues ⟨e, a, none⟩).length := by
  apply List.Sublist.length_le
  apply List.monotone_filter_right
  intro x hx
  simp only [Bool.and_eq_true] at hx ⊢
  exact ⟨⟨hx.1.1, hx.1.2⟩, trivial⟩

/-- Any start bound (present or not) keeps the loop total below the
unbounded loop total. -/
theorem count_loop_mono_start (queues : String → List EvalSub)
    (sb eb : Option Int) :
    ∀ l, (count_loop queues sb eb l).2 ≤ (count_loop queues none eb l).2
  | [] => le_refl _
  | e :: rest => by
    have ih := count_loop_mono_start queues sb eb rest
    cases sb with
    | none => simp [count_loop, Nat.add_le_add_left, ih]
    | some v =>
      simp only [count_loop]
      exact Nat.add_le_add (run_query_mono_start queues e v eb) ih

/-- Any end bound (present or not) keeps the loop total below the
unbounded loop total. -/
theorem count_loop_mono_end (queues : String → List EvalSub)
    (sb eb : Option Int) :
    ∀ l, (count_loop queues sb eb l).2 ≤ (count_loop queues sb none l).2
  | [] => le_refl _
  | e :: rest => by
    have ih := count_loop_mono_end queues sb eb rest
    cases eb with
    | none => simp [count_loop, Nat.add_le_add_left, ih]
    | some v =>
      simp only [count_loop]
      exact Nat.add_le_add (run_query_mono_end queues e v sb) ih

/-- C3: with no date bounds `count_submissions` returns the sum over the
queues of their ACCEPTED-submission counts; and whenever a run with a
start (resp. end) bound and a run without it both succeed, the bounded
total never exceeds the unbounded one. -/
theorem c3_count_bounds_monotone (queues : String → List EvalSub) (tzOff : Int)
    (evaluations : List String) :
    (count_submissions queues tzOff evaluations none none =
      .ok (evaluations.map fun e => (⟨e, none, none⟩ : SubQuery),
        (evaluations.map fun e =>
          ((queues e).filter fun sub => sub.status == "ACCEPTED").length).sum)) ∧
    (∀ s stop r1 r2,
      count_submissions queues tzOff evaluations (some s) stop = .ok r1 →
      count_submissions queues tzOff evaluations none stop = .ok r2 →
      r1.2 ≤ r2.2) ∧
    (∀ e start r1 r2,
      count_submissions queues tzOff evaluations start (some e) = .ok r1 →
      count_submissions queues tzOff evaluations start none = .ok r2 →
      r1.2 ≤ r2.2) := by
  refine ⟨?_, ?_, ?_⟩
  · show Except.ok (count_loop queues none none evaluations) = _
    congr 1
    refine Prod.ext ?_ ?_
    · simpa using count_loop_queries queues none none evaluations
    · simp only [count_loop_total queues none none evaluations]
      congr 1
      exact List.map_congr_left fun e _ => by rw [run_query_nobounds]
  · intro s stop r1 r2 h1 h2
    have hnone : convert_bound tzOff none = Except.ok none := rfl
    cases hstart : convert_bound tzOff (some s) with
    | error er =>
      simp only [count_submissions, bind, Except.bind, hstart] at h1
      cases h1
    | ok se =>
      cases hstop : convert_bound tzOff stop with
      | error er =>
        simp only [count_submissions, bind, Except.bind, hstart, hstop] at h1
        cases h1
      | ok ee =>
        simp only [count_submissions, bind, Except.bind, hstart, hstop,
          Except.ok.injEq] at h1
        simp only [count_submissions, bind, Except.bind, hnone, hstop,
          Except.ok.injEq] at h2
        rw [← h1, ← h2]
        exact count_loop_mono_start queues (truthyBound se)
          (truthyBound ee) evaluations
  · intro e start r1 r2 h1 h2
    cases hstart : convert_bound tzOff start with
    | error er =>
      simp only [count_submissions, bind, Except.bind, hstart] at h1
      cases h1
    | ok se =>
      have hnone : convert_bound tzOff none = Except.ok none := rfl
      cases hstop : convert_bound tzOff (some e) with
      | error er =>
        simp only [count_submissions, bind, Except.bind, hstart, hstop] at h1
        cases h1
      | ok ee =>
        simp only [count_submissions, bind, Except.bind, hstart, hstop,
          Except.ok.injEq] at h1
        simp only [count_submissions, bind, Except.bind, hstart, hnone,
          Except.ok.injEq] at h2
        rw [← h1, ← h2]
        exact count_loop_mono_end queues (truthyBound se)
          (truthyBound ee) evaluations

/-- Queue oracle for the C3 witness: five ACCEPTED submissions (and one
INVALID) in queue `e1`, three in queue `e2`. -/
def c3queues : String → List EvalSub := fun e =>
  if e = "e1" then
    [⟨"ACCEPTED", 10000⟩, ⟨"ACCEPTED", 20000⟩, ⟨"INVALID", 30000⟩,
     ⟨"ACCEPTED", 40000⟩, ⟨"ACCEPTED", 50000⟩, ⟨"ACCEPTED", 60000⟩]
  else [⟨"ACCEPTED", 5000⟩, ⟨"ACCEPTED", 15000⟩, ⟨"ACCEPTED", 25000⟩]

/-- Concrete witness for C3: the two queues counted without bounds, and
the monotonicity conclusion at a concrete start bound (which keeps 3 of
the 8 ACCEPTED submissions). -/
theorem c3_count_bounds_monotone_witness :
    (count_submissions c3queues 0 ["e1", "e2"] none none =
      .ok ((["e1", "e2"].map fun e => (⟨e, none, none⟩ : SubQuery)),
        (["e1", "e2"].map fun e =>
          ((c3queues e).filter fun sub => sub.status == "ACCEPTED").length).sum)) ∧
    (([(⟨"e1", some 30000, none⟩ : SubQuery), ⟨"e2", some 30000, none⟩], (3 : Nat)).2 ≤
      ([(⟨"e1", none, none⟩ : SubQuery), ⟨"e2", none, none⟩], (8 : Nat)).2) :=
  ⟨(c3_count_bounds_monotone c3queues 0 ["e1", "e2"]).1,
   (c3_count_bounds_monotone c3queues 0 ["e1", "e2"]).2.1
     "1970-01-01T00:00:30" none
     ([⟨"e1", some 30000, none⟩, ⟨"e2", some 30000, none⟩], 3)
     ([⟨"e1", none, none⟩, ⟨"e2", none, none⟩], 8) rfl rfl⟩

/-! ### C4: query construction -/

/-- Characterization of `convert_bound` on an omitted bound. -/
theorem convert_bound_of_none (tzOff : Int) (se : Option Int)
    (h : convert_bound tzOff none = .ok se) : se = none := by
  simpa [convert_bound] using h.symm

/-- Characterization of `convert_bound` on a supplied bound whose
conversion succeeds. -/
theorem convert_bound_of_some (tzOff : Int) (s : String) (v : Int)
    (se : Option Int) (hconv : convert_to_epoch tzOff s = some v)
    (h : convert_bound tzOff (some s) = .ok se) : se = some v := by
  by_cases hs : s = ""
  · subst hs
    have hnone : convert_to_epoch tzOff "" = none := rfl
    rw [hnone] at hconv
    cases hconv
  · simp only [convert_bound, hs, if_false, hconv, Except.ok.injEq] at h
    exact h.symm

/-- C4 counterexample: the supplied start bound `1970-01-01T00:00:00`
(with the local timezone at UTC) converts to epoch value 0, and the
`if start:` truthiness test on the converted integer then omits the
`createdOn` predicate from the issued query, although the claim requires
every supplied bound to be injected. -/
theorem c4_query_construction_counterexample :
    convert_to_epoch 0 "1970-01-01T00:00:00" = some 0 ∧
    count_submissions (fun _ => []) 0 ["123"]
      (some "1970-01-01T00:00:00") none =
      .ok ([⟨"123", none, none⟩], 0) :=
  ⟨rfl, rfl⟩

/-- C4 amended: every successful `count_submissions` run issues exactly
one query per evaluation id, in order; an omitted (`None`) bound
contributes no predicate; a supplied bound whose epoch-millisecond
conversion is non-zero is injected into every per-queue query as the
corresponding inclusive inequality predicate; but a supplied bound whose
conversion is exactly epoch 0 is dropped by the truthiness test and
contributes no predicate. -/
theorem c4_query_construction_amended (queues : String → List EvalSub)
    (tzOff : Int) (evaluations : List String) (start stop : Option String)
    (res : List SubQuery × Nat)
    (h : count_submissions queues tzOff evaluations start stop = .ok res) :
    (res.1.map SubQuery.eval_id = evaluations) ∧
    (res.1.length = evaluations.length) ∧
    (start = none → ∀ q ∈ res.1, q.startBound = none) ∧
    (∀ s v, start = some s → convert_to_epoch tzOff s = some v → v ≠ 0 →
      ∀ q ∈ res.1, q.startBound = some v) ∧
    (∀ s, start = some s → convert_to_epoch tzOff s = some 0 →
      ∀ q ∈ res.1, q.startBound = none) ∧
    (stop = none → ∀ q ∈ res.1, q.endBound = none) ∧
    (∀ s v, stop = some s → convert_to_epoch tzOff s = some v → v ≠ 0 →
      ∀ q ∈ res.1, q.endBound = some v) ∧
    (∀ s, stop = some s → convert_to_epoch tzOff s = some 0 →
      ∀ q ∈ res.1, q.endBound = none) := by
  cases hstart : convert_bound tzOff start with
  | error er =>
    simp only [count_submissions, bind, Except.bind, hstart] at h
    cases h
  | ok se =>
    cases hstop : convert_bound tzOff stop with
    | error er =>
      simp only [count_submissions, bind, Except.bind, hstart, hstop] at h
      cases h
    | ok ee =>
      simp only [count_submissions, hstart, hstop, bind, Except.bind,
        Except.ok.injEq] at h
      have hqs : res.1 = evaluations.map fun e =>
          (⟨e, truthyBound se, truthyBound ee⟩ : SubQuery) := by
        rw [← h]
        exact count_loop_queries queues _ _ evaluations
      have hmem : ∀ q ∈ res.1,
          q.startBound = truthyBound se ∧ q.endBound = truthyBound ee := by
        intro q hq
        rw [hqs] at hq
        obtain ⟨e, _, rfl⟩ := List.mem_map.mp hq
        exact ⟨rfl, rfl⟩
      refine ⟨?_, ?_, ?_, ?_, ?_, ?_, ?_, ?_⟩
      · rw [hqs, List.map_map]
        have hid : (SubQuery.eval_id ∘ fun e =>
            (⟨e, truthyBound se, truthyBound ee⟩ : SubQuery)) = id := rfl
        rw [hid, List.map_id]
      · rw [hqs, List.length_map]
      · intro hnone q hq
        subst hnone
        rw [(hmem q hq).1, convert_bound_of_none tzOff se hstart]
        rfl
      · intro s v hsome hconv hv q hq
        subst hsome
        rw [(hmem q hq).1, convert_bound_of_some tzOff s v se hconv hstart]
        simp [truthyBound, hv]
      · intro s hsome hconv q hq
        subst hsome
        rw [(hmem q hq).1, convert_bound_of_some tzOff s 0 se hconv hstart]
        rfl
      · intro hnone q hq
        subst hnone
        rw [(hmem q hq).2, convert_bound_of_none tzOff ee hstop]
        rfl
      · intro s v hsome hconv hv q hq
        subst hsome
        rw [(hmem q hq).2, convert_bound_of_some tzOff s v ee hconv hstop]
        simp [truthyBound, hv]
      · intro s hsome hconv q hq
        subst hsome
        rw [(hmem q hq).2, convert_bound_of_some tzOff s 0 ee hconv hstop]
        rfl

/-- Concrete witness for C4 (amended): two queues, a supplied non-zero
start bound and an omitted end bound. -/
theorem c4_query_construction_amended_witness :
    (([(⟨"e1", some 1614592800000, none⟩ : SubQuery),
       ⟨"e2", some 1614592800000, none⟩].map SubQuery.eval_id) = ["e1", "e2"]) ∧
    (([(⟨"e1", some 1614592800000, none⟩ : SubQuery),
       ⟨"e2", some 1614592800000, none⟩] : List SubQuery).length =
      (["e1", "e2"] : List String).length) ∧
    ((some "2021-03-01T10:00:00" : Option String) = none →
      ∀ q ∈ [(⟨"e1", some 1614592800000, none⟩ : SubQuery),
             ⟨"e2", some 1614592800000, none⟩], q.startBound = none) ∧
    (∀ s v, (some "2021-03-01T10:00:00" : Option String) = some s →
      convert_to_epoch 0 s = some v → v ≠ 0 →
      ∀ q ∈ [(⟨"e1", some 1614592800000, none⟩ : SubQuery),
             ⟨"e2", some 1614592800000, none⟩], q.startBound = some v) ∧
    (∀ s, (some "2021-03-01T10:00:00" : Option String) = some s →
      convert_to_epoch 0 s = some 0 →
      ∀ q ∈ [(⟨"e1", some 1614592800000, none⟩ : SubQuery),
             ⟨"e2", some 1614592800000, none⟩], q.startBound = none) ∧
    ((none : Option String) = none →
      ∀ q ∈ [(⟨"e1", some 1614592800000, none⟩ : SubQuery),
             ⟨"e2", some 1614592800000, none⟩], q.endBound = none) ∧
    (∀ s v, (none : Option String) = some s →
      convert_to_epoch 0 s = some v → v ≠ 0 →
      ∀ q ∈ [(⟨"e1", some 1614592800000, none⟩ : SubQuery),
             ⟨"e2", some 1614592800000, none⟩], q.endBound = some v) ∧
    (∀ s, (none : Option String) = some s →
      convert_to_epoch 0 s = some 0 →
      ∀ q ∈ [(⟨"e1", some 1614592800000, none⟩ : SubQuery),
             ⟨"e2", some 1614592800000, none⟩], q.endBound = none) :=
  c4_query_construction_amended (fun _ => []) 0 ["e1", "e2"]
    (some "2021-03-01T10:00:00") none
    ([⟨"e1", some 1614592800000, none⟩, ⟨"e2", some 1614592800000, none⟩], 0)
    rfl

/-! ### C6: the two-challenge report totals -/

/-- REST oracle for the C6 scenario: two challenges, one scoring queue
each. -/
def c6rest : String → ChallengeEntity := fun c =>
  if c = "chA" then ⟨"Challenge A", "9601", "tA", [⟨"e1", "Final Round"⟩]⟩
  else ⟨"Challenge B", "9602", "tB", [⟨"e2", "final"⟩]⟩

/-- Team oracle for the C6 scenario: participant sets of sizes 10 and 4
sharing exactly the two members `u8`, `u9`. -/
def c6teams : String → Finset String := fun t =>
  if t = "tA" then {"u0", "u1", "u2", "u3", "u4", "u5", "u6", "u7", "u8", "u9"}
  else {"u8", "u9", "uA", "uB"}

/-- Queue oracle for the C6 scenario: five and three ACCEPTED
submissions. -/
def c6queues : String → List EvalSub := fun e =>
  if e = "e1" then
    [⟨"ACCEPTED", 1⟩, ⟨"ACCEPTED", 2⟩, ⟨"ACCEPTED", 3⟩,
     ⟨"ACCEPTED", 4⟩, ⟨"ACCEPTED", 5⟩]
  else [⟨"ACCEPTED", 1⟩, ⟨"ACCEPTED", 2⟩, ⟨"ACCEPTED", 3⟩]

/-- C6 counterexample: with queue counts 5 and 3 and participant sets of
sizes 10 and 4 sharing 2 members, `print_report` prints 12 unique
registrants (the union's size), not the claimed 8; the submission total
is 8 as claimed. -/
theorem c6_report_totals_counterexample :
    print_report c6rest c6teams c6queues 0 ["chA", "chB"] none none =
      .ok ["9601\tChallenge A\ttA\t10\t5",
           "9602\tChallenge B\ttB\t4\t3",
           "====================",
           "Total registrants for challenges: 12",
           "Total submissions for challenges: 8"] ∧
    "Total registrants for challenges: 8" ∉
      ["9601\tChallenge A\ttA\t10\t5",
       "9602\tChallenge B\ttB\t4\t3",
       "====================",
       "Total registrants for challenges: 12",
       "Total submissions for challenges: 8"] :=
  ⟨rfl, by decide⟩

/-- C6 amended: for any two challenges whose queue counts are 5 and 3 and
whose participant sets have sizes 10 and 4 with exactly 2 shared members,
the reporter prints 12 unique registrants (10 + 4 − 2) and 8 total
submissions. -/
theorem c6_report_totals_amended (rest : String → ChallengeEntity)
    (team_set : String → Finset String) (queues : String → List EvalSub)
    (tzOff : Int) (a b : String) (st en : Option String)
    (qs1 qs2 : List SubQuery) (PA PB : Finset String)
    (hPA : team_set (get_challenge_info rest a).team = PA)
    (hPB : team_set (get_challenge_info rest b).team = PB)
    (hcA : PA.card = 10) (hcB : PB.card = 4) (hI : (PA ∩ PB).card = 2)
    (hq1 : count_submissions queues tzOff (get_challenge_info rest a).eval_ids
      st en = .ok (qs1, 5))
    (hq2 : count_submissions queues tzOff (get_challenge_info rest b).eval_ids
      st en = .ok (qs2, 3)) :
    print_report rest team_set queues tzOff [a, b] st en = .ok
      [String.intercalate "\t" [(get_challenge_info rest a).c_id,
         (get_challenge_info rest a).name, (get_challenge_info rest a).team,
         "10", "5"],
       String.intercalate "\t" [(get_challenge_info rest b).c_id,
         (get_challenge_info rest b).name, (get_challenge_info rest b).team,
         "4", "3"],
       "====================",
       "Total registrants for challenges: 12",
       "Total submissions for challenges: 8"] := by
  have hU : ((∅ ∪ PA) ∪ PB).card = 12 := by
    rw [Finset.empty_union]
    have h := Finset.card_union_add_card_inter PA PB
    rw [hcA, hcB, hI] at h
    omega
  simp only [print_report, report_loop, bind, Except.bind, hq1, hq2,
    hPA, hPB, hU, hcA, hcB]
  rfl

/-- Concrete witness for C6 (amended): the two-challenge scenario above. -/
theorem c6_report_totals_amended_witness :
    print_report c6rest c6teams c6queues 0 ["chA", "chB"] none none = .ok
      [String.intercalate "\t" [(get_challenge_info c6rest "chA").c_id,
         (get_challenge_info c6rest "chA").name,
         (get_challenge_info c6rest "chA").team, "10", "5"],
       String.intercalate "\t" [(get_challenge_info c6rest "chB").c_id,
         (get_challenge_info c6rest "chB").name,
         (get_challenge_info c6rest "chB").team, "4", "3"],
       "====================",
       "Total registrants for challenges: 12",
       "Total submissions for challenges: 8"] :=
  c6_report_totals_amended c6rest c6teams c6queues 0 "chA" "chB" none none
    [⟨"e1", none, none⟩] [⟨"e2", none, none⟩]
    {"u0", "u1", "u2", "u3", "u4", "u5", "u6", "u7", "u8", "u9"}
    {"u8", "u9", "uA", "uB"}
    rfl rfl (by decide) (by decide) (by decide) rfl rfl

/-! ### Matcher lemmas

Stepping lemmas for `matchAtoms`, `tryStar`, `repCC` and `search`, used to
evaluate the two marker patterns on log texts with symbolic sub-microsecond
digit runs. -/

/-- Consuming a literal segment of atoms over the identical input
segment. -/
theorem matchAtoms_lits (l : List Char) (as : List Atom) (s : List Char)
    (k : List Char → Option (List Char)) :
    matchAtoms (l.map Atom.ch ++ as) (l ++ s) k = matchAtoms as s k := by
  induction l with
  | nil => rfl
  | cons c t ih =>
    simp only [List.map_cons, List.cons_append, matchAtoms, if_pos rfl]
    exact ih

/-- Consuming a whole literal string pattern. -/
theorem matchAtoms_str_all (w : String) (s : List Char)
    (k : List Char → Option (List Char)) :
    matchAtoms (strAtoms w) (w.toList ++ s) k = k s := by
  have h := matchAtoms_lits w.toList [] s k
  rwa [List.append_nil] at h

/-- A literal atom fails on a different head character. -/
theorem matchAtoms_ch_ne (c : Char) (as : List Atom) (c' : Char)
    (t : List Char) (k : List Char → Option (List Char)) (h : c' ≠ c) :
    matchAtoms (.ch c :: as) (c' :: t) k = none := by
  simp [matchAtoms, h]

/-- The lazy star succeeds as soon as its continuation does. -/
theorem tryStar_found (x : CC) (next : List Char → Option (List Char))
    (s : List Char) (v : List Char) (h : next s = some v) :
    tryStar x next s = some v := by
  cases s <;> simp [tryStar, h]

/-- The lazy star stops at a character outside its class: the result is
whatever the continuation yields there. -/
theorem tryStar_head_stop (x : CC) (next : List Char → Option (List Char))
    (c : Char) (t : List Char) (hc : x.test c = false) :
    tryStar x next (c :: t) = next (c :: t) := by
  cases hn : next (c :: t) <;> simp [tryStar, hn, hc]

/-- The lazy star consumes a whole in-class segment on which every proper
restart of its continuation fails. -/
theorem tryStar_skip (x : CC) (next : List Char → Option (List Char))
    (e rest : List Char) (he : ∀ c ∈ e, x.test c = true)
    (hfail : ∀ d ds, (d :: ds) <:+ e → next (d :: ds ++ rest) = none) :
    tryStar x next (e ++ rest) = tryStar x next rest := by
  induction e with
  | nil => rfl
  | cons c t ih =>
    have h0 : next (c :: (t ++ rest)) = none := hfail c t (List.suffix_refl _)
    have hc : x.test c = true := he c (by simp)
    show tryStar x next (c :: (t ++ rest)) = tryStar x next rest
    rw [tryStar, h0, if_pos hc]
    exact ih (fun a ha => he a (by simp [ha]))
      (fun d ds hs => hfail d ds (hs.trans (List.suffix_cons c t)))

/-- Exact repetition over an in-class segment of the right length. -/
theorem repCC_exact (x : CC) (next : List Char → Option (List Char)) :
    ∀ (e s : List Char), (∀ c ∈ e, x.test c = true) →
      repCC x next e.length (e ++ s) = next s
  | [], _, _ => rfl
  | c :: t, s, he => by
    have hc : x.test c = true := he c (by simp)
    show repCC x next (t.length + 1) (c :: (t ++ s)) = next s
    rw [repCC, if_pos hc]
    exact repCC_exact x next t s fun a ha => he a (by simp [ha])

/-- `re.search` succeeds wherever the pattern matches at the current
position. -/
theorem search_eq_of_matchPat_some (p : Pat) (s g : List Char)
    (h : matchPat p s = some g) : search p s = some g := by
  cases s with
  | nil => rw [search, h]
  | cons c t => rw [search, h]

/-- `re.search` steps over a position where the pattern fails. -/
theorem search_step_none (p : Pat) (c : Char) (t : List Char)
    (h : matchPat p (c :: t) = none) : search p (c :: t) = search p t := by
  rw [search, h]

/-- `re.search` steps over a whole segment at whose positions the pattern
fails. -/
theorem search_skip (p : Pat) (e rest : List Char)
    (hfail : ∀ d ds, (d :: ds) <:+ e → matchPat p (d :: (ds ++ rest)) = none) :
    search p (e ++ rest) = search p rest := by
  induction e with
  | nil => rfl
  | cons c t ih =>
    rw [List.cons_append,
      search_step_none p c (t ++ rest) (hfail c t (List.suffix_refl _))]
    exact ih fun d ds hs => hfail d ds (hs.trans (List.suffix_cons c t))

/-- A digit differs from every non-digit character. -/
theorem isDigit_ne (c x : Char) (h : c.isDigit = true)
    (hx : x.isDigit = false) : c ≠ x := by
  intro he
  rw [he, hx] at h
  cases h

/-- The start pattern fails at any position not starting with `S`. -/
theorem matchPat_startPat_ne (d : Char) (t : List Char) (hd : d ≠ 'S') :
    matchPat startPat (d :: t) = none := by
  show matchAtoms (strAtoms "STDERR: ") (d :: t) _ = none
  exact matchAtoms_ch_ne 'S' _ d t _ hd

/-- The end pattern fails at any position not starting with `S`. -/
theorem matchPat_endPat_ne (d : Char) (t : List Char) (hd : d ≠ 'S') :
    matchPat endPat (d :: t) = none := by
  show matchAtoms (strAtoms "STDERR: ") (d :: t) _ = none
  exact matchAtoms_ch_ne 'S' _ d t _ hd

/-- A literal atom over its own head character. -/
theorem matchAtoms_ch_pos (c : Char) (as : List Atom) (t : List Char)
    (k : List Char → Option (List Char)) :
    matchAtoms (.ch c :: as) (c :: t) k = matchAtoms as t k := by
  simp [matchAtoms]

/-- Unfolding of a lazy star atom. -/
theorem matchAtoms_starLazy_eq (x : CC) (as : List Atom) (s : List Char)
    (k : List Char → Option (List Char)) :
    matchAtoms (.starLazy x :: as) s k =
      tryStar x (fun s' => matchAtoms as s' k) s := rfl

/-- Exact repetition over a segment of the right length. -/
theorem matchAtoms_repExact_exact (x : CC) (n : Nat) (as : List Atom)
    (e s : List Char) (k : List Char → Option (List Char))
    (hn : e.length = n) (he : ∀ c ∈ e, x.test c = true) :
    matchAtoms (.repExact x n :: as) (e ++ s) k = matchAtoms as s k := by
  show repCC x (fun s' => matchAtoms as s' k) n (e ++ s) = _
  subst hn
  exact repCC_exact x _ e s he

/-- A lazy plus whose continuation starts with the literal `b'` consumes
the whole in-class run `c :: e` (none of whose characters is `b'`) and
hands over at the first out-of-class character `b`. -/
theorem matchAtoms_plusLazy_chstop (x : CC) (b' : Char) (as' : List Atom)
    (k : List Char → Option (List Char)) (c : Char) (e : List Char) (b : Char)
    (rest : List Char) (hc : x.test c = true) (he : ∀ a ∈ e, x.test a = true)
    (hb : x.test b = false) (hne : ∀ d ∈ e, d ≠ b') :
    matchAtoms (.plusLazy x :: .ch b' :: as') (c :: (e ++ (b :: rest))) k =
      matchAtoms (.ch b' :: as') (b :: rest) k := by
  show (if x.test c then
      tryStar x (fun s' => matchAtoms (.ch b' :: as') s' k) (e ++ (b :: rest))
    else none) = _
  rw [if_pos hc]
  rw [tryStar_skip x _ e (b :: rest) he fun d ds hs =>
    matchAtoms_ch_ne b' as' d (ds ++ (b :: rest)) k
      (hne d (List.IsSuffix.mem (List.mem_cons_self d ds) hs))]
  exact tryStar_head_stop x _ b rest hb

/-- A lazy star whose continuation starts with the literal `b'` consumes
the whole in-class segment `e` (none of whose characters is `b'`) and
hands over at the first out-of-class character `b`. -/
theorem matchAtoms_starLazy_chstop (x : CC) (b' : Char) (as' : List Atom)
    (k : List Char → Option (List Char)) (e : List Char) (b : Char)
    (rest : List Char) (he : ∀ a ∈ e, x.test a = true)
    (hb : x.test b = false) (hne : ∀ d ∈ e, d ≠ b') :
    matchAtoms (.starLazy x :: .ch b' :: as') (e ++ (b :: rest)) k =
      matchAtoms (.ch b' :: as') (b :: rest) k := by
  rw [matchAtoms_starLazy_eq]
  rw [tryStar_skip x _ e (b :: rest) he fun d ds hs =>
    matchAtoms_ch_ne b' as' d (ds ++ (b :: rest)) k
      (hne d (List.IsSuffix.mem (List.mem_cons_self d ds) hs))]
  exact tryStar_head_stop x _ b rest hb

/-- A lazy star whose continuation starts with the literal `b'` skips an
in-class segment free of `b'` and succeeds where its continuation does. -/
theorem matchAtoms_starLazy_skip_found (x : CC) (b' : Char) (as' : List Atom)
    (k : List Char → Option (List Char)) (e rest v : List Char)
    (he : ∀ a ∈ e, x.test a = true) (hne : ∀ d ∈ e, d ≠ b')
    (hsucc : matchAtoms (.ch b' :: as') rest k = some v) :
    matchAtoms (.starLazy x :: .ch b' :: as') (e ++ rest) k = some v := by
  rw [matchAtoms_starLazy_eq]
  rw [tryStar_skip x _ e rest he fun d ds hs =>
    matchAtoms_ch_ne b' as' d (ds ++ rest) k
      (hne d (List.IsSuffix.mem (List.mem_cons_self d ds) hs))]
  exact tryStar_found x _ rest v hsucc

/-- The capturing group of both marker patterns consumes exactly the
timestamp run, the dot and the six fraction digits. -/
theorem grp_eval (c0 : Char) (ts f6 X : List Char)
    (k : List Char → Option (List Char))
    (hc0 : CC.test .tsChar c0 = true)
    (hts : ∀ a ∈ ts, CC.test .tsChar a = true) (hdot : ∀ d ∈ ts, d ≠ '.')
    (hf6 : f6.length = 6) (hdig : ∀ c ∈ f6, CC.test .digit c = true) :
    matchAtoms [.plusLazy .tsChar, .ch '.', .repExact .digit 6]
      (c0 :: (ts ++ ('.' :: (f6 ++ X)))) k = k X := by
  rw [matchAtoms_plusLazy_chstop .tsChar '.' [Atom.repExact .digit 6] k c0 ts '.'
    (f6 ++ X) hc0 hts rfl hdot]
  rw [matchAtoms_ch_pos]
  rw [matchAtoms_repExact_exact .digit 6 [] f6 X k hf6 hdig]
  rfl


/-- Length bookkeeping for the capture of `matchPat`: the group consumed
exactly the prefix `a`. -/
theorem take_diff (a b : List Char) :
    (a ++ b).take ((a ++ b).length - b.length) = a := by
  rw [List.length_append, Nat.add_sub_cancel]
  exact List.take_left a b

/-- The start pattern matches at the head of a start-marker line whose
fraction carries the extra digit run `e`, capturing the timestamp
truncated to six fractional digits. -/
theorem matchPat_start_marker (e rest : List Char) (he : e ≠ [])
    (hd : ∀ c ∈ e, c.isDigit = true) :
    matchPat startPat
      ("STDERR: 2021-03-01T10:00:00.123456".toList ++
        (e ++ ("Z Issued job run_docker.cwl".toList ++ rest))) =
      some ("2021-03-01T10:00:00.123456".toList) := by
  obtain ⟨c0, e', rfl⟩ := List.exists_cons_of_ne_nil he
  rw [show ("STDERR: 2021-03-01T10:00:00.123456".toList ++
      ((c0 :: e') ++ ("Z Issued job run_docker.cwl".toList ++ rest)) : List Char) =
      "STDERR: ".toList ++ ('2' :: ("021-03-01T10:00:00".toList ++ ('.' ::
        ("123456".toList ++ ((c0 :: e') ++
          ("Z Issued job run_docker.cwl".toList ++ rest)))))) from by
    rw [show ("STDERR: 2021-03-01T10:00:00.123456".toList : List Char) =
      "STDERR: ".toList ++ ('2' :: ("021-03-01T10:00:00".toList ++
        ('.' :: "123456".toList))) from rfl]
    simp [List.append_assoc]]
  unfold matchPat
  rw [show startPat.pre = strAtoms "STDERR: " from rfl,
    show startPat.grp =
      [.plusLazy .tsChar, .ch '.', .repExact .digit 6] from rfl]
  rw [matchAtoms_str_all]
  rw [grp_eval '2' ("021-03-01T10:00:00".toList) ("123456".toList) _ _ rfl
    (by decide) (by decide) rfl (by decide)]
  rw [show startPat.post = .plusLazy .digit :: .ch 'Z' :: .starLazy .anyNoNL ::
    (strAtoms "Issued job" ++ ([.starLazy .anyNoNL] ++
      strAtoms "run_docker.cwl")) from rfl]
  rw [show ("Z Issued job run_docker.cwl".toList ++ rest : List Char) =
    'Z' :: (" Issued job run_docker.cwl".toList ++ rest) from rfl]
  refine Eq.trans (matchAtoms_plusLazy_chstop .digit 'Z' _ _ c0 e' 'Z'
    (" Issued job run_docker.cwl".toList ++ rest) (hd c0 (by simp))
    (fun a ha => hd a (by simp [ha])) rfl
    (fun d hdm => isDigit_ne d 'Z' (hd d (by simp [hdm])) (by decide))) ?_
  refine Eq.trans (matchAtoms_ch_pos 'Z' _ _ _) ?_
  apply matchAtoms_starLazy_skip_found .anyNoNL 'I' _ _ [' ']
    ("Issued job run_docker.cwl".toList ++ rest) _ (by decide) (by decide)
  refine Eq.trans (matchAtoms_lits ("Issued job".toList) _
    (" run_docker.cwl".toList ++ rest) _) ?_
  apply matchAtoms_starLazy_skip_found .anyNoNL 'r' _ _ [' ']
    ("run_docker.cwl".toList ++ rest) _ (by decide) (by decide)
  refine Eq.trans (matchAtoms_lits ("run_docker.cwl".toList) [] rest _) ?_
  exact congrArg some (take_diff ("2021-03-01T10:00:00.123456".toList) _)

/-- The end pattern matches at the head of an end-marker line, capturing
the timestamp truncated to six fractional digits. -/
theorem matchPat_end_marker (e rest : List Char) (he : e ≠ [])
    (hd : ∀ c ∈ e, c.isDigit = true) :
    matchPat endPat
      ("STDERR: 2021-03-01T10:30:00.654321".toList ++
        (e ++ ("Z Job ended run_docker.cwl".toList ++ rest))) =
      some ("2021-03-01T10:30:00.654321".toList) := by
  obtain ⟨c0, e', rfl⟩ := List.exists_cons_of_ne_nil he
  rw [show ("STDERR: 2021-03-01T10:30:00.654321".toList ++
      ((c0 :: e') ++ ("Z Job ended run_docker.cwl".toList ++ rest)) : List Char) =
      "STDERR: ".toList ++ ('2' :: ("021-03-01T10:30:00".toList ++ ('.' ::
        ("654321".toList ++ ((c0 :: e') ++
          ("Z Job ended run_docker.cwl".toList ++ rest)))))) from by
    rw [show ("STDERR: 2021-03-01T10:30:00.654321".toList : List Char) =
      "STDERR: ".toList ++ ('2' :: ("021-03-01T10:30:00".toList ++
        ('.' :: "654321".toList))) from rfl]
    simp [List.append_assoc]]
  unfold matchPat
  rw [show endPat.pre = strAtoms "STDERR: " from rfl,
    show endPat.grp =
      [.plusLazy .tsChar, .ch '.', .repExact .digit 6] from rfl]
  rw [matchAtoms_str_all]
  rw [grp_eval '2' ("021-03-01T10:30:00".toList) ("654321".toList) _ _ rfl
    (by decide) (by decide) rfl (by decide)]
  rw [show endPat.post = .plusLazy .digit :: .ch 'Z' :: .starLazy .anyNoNL ::
    (strAtoms "Job ended" ++ ([.starLazy .anyNoNL] ++
      strAtoms "run_docker.cwl")) from rfl]
  rw [show ("Z Job ended run_docker.cwl".toList ++ rest : List Char) =
    'Z' :: (" Job ended run_docker.cwl".toList ++ rest) from rfl]
  refine Eq.trans (matchAtoms_plusLazy_chstop .digit 'Z' _ _ c0 e' 'Z'
    (" Job ended run_docker.cwl".toList ++ rest) (hd c0 (by simp))
    (fun a ha => hd a (by simp [ha])) rfl
    (fun d hdm => isDigit_ne d 'Z' (hd d (by simp [hdm])) (by decide))) ?_
  refine Eq.trans (matchAtoms_ch_pos 'Z' _ _ _) ?_
  apply matchAtoms_starLazy_skip_found .anyNoNL 'J' _ _ [' ']
    ("Job ended run_docker.cwl".toList ++ rest) _ (by decide) (by decide)
  refine Eq.trans (matchAtoms_lits ("Job ended".toList) _
    (" run_docker.cwl".toList ++ rest) _) ?_
  apply matchAtoms_starLazy_skip_found .anyNoNL 'r' _ _ [' ']
    ("run_docker.cwl".toList ++ rest) _ (by decide) (by decide)
  refine Eq.trans (matchAtoms_lits ("run_docker.cwl".toList) [] rest _) ?_
  exact congrArg some (take_diff ("2021-03-01T10:30:00.654321".toList) _)

/-- The end pattern fails at the head of a start-marker line: the lazy
dot-star cannot reach `Job ended` before the line's newline. -/
theorem matchPat_end_on_startline (e rest : List Char) (he : e ≠ [])
    (hd : ∀ c ∈ e, c.isDigit = true) :
    matchPat endPat
      ("STDERR: 2021-03-01T10:00:00.123456".toList ++
        (e ++ ("Z Issued job run_docker.cwl".toList ++ ('\n' :: rest)))) =
      none := by
  obtain ⟨c0, e', rfl⟩ := List.exists_cons_of_ne_nil he
  rw [show ("STDERR: 2021-03-01T10:00:00.123456".toList ++
      ((c0 :: e') ++ ("Z Issued job run_docker.cwl".toList ++
        ('\n' :: rest))) : List Char) =
      "STDERR: ".toList ++ ('2' :: ("021-03-01T10:00:00".toList ++ ('.' ::
        ("123456".toList ++ ((c0 :: e') ++
          ("Z Issued job run_docker.cwl".toList ++ ('\n' :: rest))))))) from by
    rw [show ("STDERR: 2021-03-01T10:00:00.123456".toList : List Char) =
      "STDERR: ".toList ++ ('2' :: ("021-03-01T10:00:00".toList ++
        ('.' :: "123456".toList))) from rfl]
    simp [List.append_assoc]]
  unfold matchPat
  rw [show endPat.pre = strAtoms "STDERR: " from rfl,
    show endPat.grp =
      [.plusLazy .tsChar, .ch '.', .repExact .digit 6] from rfl]
  rw [matchAtoms_str_all]
  rw [grp_eval '2' ("021-03-01T10:00:00".toList) ("123456".toList) _ _ rfl
    (by decide) (by decide) rfl (by decide)]
  rw [show endPat.post = .plusLazy .digit :: .ch 'Z' :: .starLazy .anyNoNL ::
    (strAtoms "Job ended" ++ ([.starLazy .anyNoNL] ++
      strAtoms "run_docker.cwl")) from rfl]
  rw [show ("Z Issued job run_docker.cwl".toList ++ ('\n' :: rest) : List Char) =
    'Z' :: (" Issued job run_docker.cwl".toList ++ ('\n' :: rest)) from rfl]
  refine Eq.trans (matchAtoms_plusLazy_chstop .digit 'Z' _ _ c0 e' 'Z'
    (" Issued job run_docker.cwl".toList ++ ('\n' :: rest)) (hd c0 (by simp))
    (fun a ha => hd a (by simp [ha])) rfl
    (fun d hdm => isDigit_ne d 'Z' (hd d (by simp [hdm])) (by decide))) ?_
  refine Eq.trans (matchAtoms_ch_pos 'Z' _ _ _) ?_
  refine Eq.trans (matchAtoms_starLazy_chstop .anyNoNL 'J' _ _
    (" Issued job run_docker.cwl".toList) '\n' rest (by decide) rfl
    (by decide)) ?_
  exact matchAtoms_ch_ne 'J' _ '\n' rest _ (by decide)

/-- Family of two-line TOIL logs for the truncation claim: both marker
timestamps carry six fractional digits followed by the arbitrary
sub-microsecond digit runs `e1` and `e2`. -/
def c8log (e1 e2 : List Char) : List Char :=
  "STDERR: 2021-03-01T10:00:00.123456".toList ++ (e1 ++
    ("Z Issued job run_docker.cwl".toList ++ ('\n' ::
      ("STDERR: 2021-03-01T10:30:00.654321".toList ++ (e2 ++
        "Z Job ended run_docker.cwl".toList)))))

/-- The start-marker search on the log family captures the truncated
first timestamp (the match is at position 0). -/
theorem c8_searchStart (e1 e2 : List Char) (he1 : e1 ≠ [])
    (hd1 : ∀ c ∈ e1, c.isDigit = true) :
    search startPat (c8log e1 e2) =
      some ("2021-03-01T10:00:00.123456".toList) :=
  search_eq_of_matchPat_some _ _ _
    (matchPat_start_marker e1
      ('\n' :: ("STDERR: 2021-03-01T10:30:00.654321".toList ++ (e2 ++
        "Z Job ended run_docker.cwl".toList))) he1 hd1)

/-- The end-marker search on the log family skips the whole first line
(including the variable digit run) and captures the truncated second
timestamp. -/
theorem c8_searchEnd (e1 e2 : List Char) (he1 : e1 ≠ []) (he2 : e2 ≠ [])
    (hd1 : ∀ c ∈ e1, c.isDigit = true) (hd2 : ∀ c ∈ e2, c.isDigit = true) :
    search endPat (c8log e1 e2) =
      some ("2021-03-01T10:30:00.654321".toList) := by
  have hline2 : search endPat
      ("STDERR: 2021-03-01T10:30:00.654321".toList ++ (e2 ++
        "Z Job ended run_docker.cwl".toList)) =
      some ("2021-03-01T10:30:00.654321".toList) :=
    search_eq_of_matchPat_some _ _ _ (matchPat_end_marker e2 [] he2 hd2)
  have hstep0 : search endPat (c8log e1 e2) = search endPat
      ("TDERR: 2021-03-01T10:00:00.123456".toList ++ (e1 ++
        ("Z Issued job run_docker.cwl".toList ++ ('\n' ::
          ("STDERR: 2021-03-01T10:30:00.654321".toList ++ (e2 ++
            "Z Job ended run_docker.cwl".toList)))))) :=
    search_step_none endPat 'S' _ (matchPat_end_on_startline e1 _ he1 hd1)
  have hskip1 : search endPat
      ("TDERR: 2021-03-01T10:00:00.123456".toList ++ (e1 ++
        ("Z Issued job run_docker.cwl".toList ++ ('\n' ::
          ("STDERR: 2021-03-01T10:30:00.654321".toList ++ (e2 ++
            "Z Job ended run_docker.cwl".toList)))))) = search endPat
      (e1 ++ ("Z Issued job run_docker.cwl".toList ++ ('\n' ::
        ("STDERR: 2021-03-01T10:30:00.654321".toList ++ (e2 ++
          "Z Job ended run_docker.cwl".toList))))) :=
    search_skip endPat ("TDERR: 2021-03-01T10:00:00.123456".toList) _
      (fun d ds hs => matchPat_endPat_ne d _
        ((show ∀ c ∈ ("TDERR: 2021-03-01T10:00:00.123456".toList : List Char),
            c ≠ 'S' by decide) d
          (List.IsSuffix.mem (List.mem_cons_self d ds) hs)))
  have hskip2 : search endPat
      (e1 ++ ("Z Issued job run_docker.cwl".toList ++ ('\n' ::
        ("STDERR: 2021-03-01T10:30:00.654321".toList ++ (e2 ++
          "Z Job ended run_docker.cwl".toList))))) = search endPat
      ("Z Issued job run_docker.cwl".toList ++ ('\n' ::
        ("STDERR: 2021-03-01T10:30:00.654321".toList ++ (e2 ++
          "Z Job ended run_docker.cwl".toList)))) :=
    search_skip endPat e1 _
      (fun d ds hs => matchPat_endPat_ne d _
        (isDigit_ne d 'S'
          (hd1 d (List.IsSuffix.mem (List.mem_cons_self d ds) hs))
          (by decide)))
  have hskip3 : search endPat
      ("Z Issued job run_docker.cwl\n".toList ++
        ("STDERR: 2021-03-01T10:30:00.654321".toList ++ (e2 ++
          "Z Job ended run_docker.cwl".toList))) = search endPat
      ("STDERR: 2021-03-01T10:30:00.654321".toList ++ (e2 ++
        "Z Job ended run_docker.cwl".toList)) :=
    search_skip endPat ("Z Issued job run_docker.cwl\n".toList) _
      (fun d ds hs => matchPat_endPat_ne d _
        ((show ∀ c ∈ ("Z Issued job run_docker.cwl\n".toList : List Char),
            c ≠ 'S' by decide) d
          (List.IsSuffix.mem (List.mem_cons_self d ds) hs)))
  exact hstep0.trans (hskip1.trans (hskip2.trans (hskip3.trans hline2)))

/-- C8: on every log of the two-line marker family whose timestamps carry
sub-microsecond fractional digit runs (`e1`, `e2`, arbitrary non-empty
digit strings beyond the sixth fractional digit), `calc_exec_time` parses
each embedded timestamp truncated to exactly six fractional digits — the
captures are the truncated timestamp strings, independent of the
discarded digits — and returns the difference of the two (naive, i.e.
UTC-interpreted) truncated timestamps in seconds. -/
theorem c8_sub_microsecond_truncation (e1 e2 : List Char)
    (he1 : e1 ≠ []) (he2 : e2 ≠ [])
    (hd1 : ∀ c ∈ e1, c.isDigit = true) (hd2 : ∀ c ∈ e2, c.isDigit = true) :
    search startPat (c8log e1 e2) =
      some ("2021-03-01T10:00:00.123456".toList) ∧
    search endPat (c8log e1 e2) =
      some ("2021-03-01T10:30:00.654321".toList) ∧
    calc_exec_time (String.mk (c8log e1 e2)) =
      .ok (.secs ((((63750191400654321 : Nat) : ℚ) -
        ((63750189600123456 : Nat) : ℚ)) / 1000000)) := by
  have h1 := c8_searchStart e1 e2 he1 hd1
  have h2 := c8_searchEnd e1 e2 he1 he2 hd1 hd2
  have hi1 : fromisoformat ("2021-03-01T10:00:00.123456".toList) =
    some 63750189600123456 := by decide
  have hi2 : fromisoformat ("2021-03-01T10:30:00.654321".toList) =
    some 63750191400654321 := by decide
  refine ⟨h1, h2, ?_⟩
  show (match search startPat (String.mk (c8log e1 e2)).toList with
    | none => Except.ok (ExecResult.msg "run_docker step not found")
    | some g1 =>
      match fromisoformat g1 with
      | none => Except.error PyErr.valueError
      | some t1 =>
        match search endPat (String.mk (c8log e1 e2)).toList with
        | none => Except.ok (ExecResult.msg "run_docker step not found")
        | some g2 =>
          match fromisoformat g2 with
          | none => Except.error PyErr.valueError
          | some t2 =>
            Except.ok (ExecResult.secs (((t2 : ℚ) - (t1 : ℚ)) / 1000000))) = _
  rw [show (String.mk (c8log e1 e2)).toList = c8log e1 e2 from rfl]
  simp only [h1, hi1, h2, hi2]

/-- Concrete witness for C8: one extra fractional digit on the start
timestamp, two on the end timestamp. -/
theorem c8_sub_microsecond_truncation_witness :
    search startPat (c8log ['7'] ['9', '9']) =
      some ("2021-03-01T10:00:00.123456".toList) ∧
    search endPat (c8log ['7'] ['9', '9']) =
      some ("2021-03-01T10:30:00.654321".toList) ∧
    calc_exec_time (String.mk (c8log ['7'] ['9', '9'])) =
      .ok (.secs ((((63750191400654321 : Nat) : ℚ) -
        ((63750189600123456 : Nat) : ℚ)) / 1000000)) :=
  c8_sub_microsecond_truncation ['7'] ['9', '9'] (by decide) (by decide)
    (by decide) (by decide)

end ChallengesDcc
